import Mathlib

/-!
Shallow embedding of the inventory ledger of
`apps/product-service/src/inventory/inventory.service.ts` and of the
event-publishing retry logic of the services' `EventService`
(`publishEvent` in the user-service copy, `publish` in the
product-service copy), together with proofs about the behaviour of
these operations.

Numbers are modelled as `Int`: the TypeScript code performs ordinary
JavaScript arithmetic on integer-valued fields with no wrap-around and
no positivity guard, so negative intermediate values are representable
exactly as in the source.

Database effects are made explicit: each mutating operation takes the
current `InventoryRecord` and returns either an error (the thrown
`BadRequestException`, carrying its message) or the updated record
together with the list of `InventoryTransaction` rows created and the
list of domain events published during the call.  A call that throws
performs no write at all in the source (every check precedes every
`prisma` write), so the error branch carries no state.
-/

/-- One inventory row (`ProductInventory`): quantity on hand, reserved
units, cached `available`, low-stock threshold and tracking flag.
`productId` and the joined product fields are omitted: every claim is
about a single product's row. -/
structure InventoryRecord where
  quantity : Int
  reserved : Int
  available : Int
  lowStockThreshold : Int
  isTracked : Bool
deriving DecidableEq, Repr

/-- Transaction types of the `InventoryTransaction` ledger. -/
inductive TxType where
  | RESTOCK
  | ADJUSTMENT
  | RESERVE
  | RELEASE
  | SALE
deriving DecidableEq, Repr

/-- One append-only `InventoryTransaction` row: type, signed delta,
reason and optional order reference. -/
structure InventoryTransaction where
  type : TxType
  quantity : Int
  reason : String
  reference : Option String
deriving DecidableEq, Repr

/-- Domain events published by the inventory service during a ledger
call, with the numeric payload fields the claims are about. -/
inductive DomainEvent where
  | inventoryUpdated (previousQuantity newQuantity available : Int)
  | lowStockAlert (currentQuantity threshold : Int)
deriving DecidableEq, Repr

/-- Errors thrown by the service: `BadRequestException` /
`NotFoundException` with their message. -/
inductive InvError where
  | badRequest (message : String)
  | notFound (message : String)
deriving DecidableEq, Repr

/-- The message of the `BadRequestException` thrown by
`reserveInventory`:
`Insufficient inventory. Available: ${..}, Requested: ${..}`. -/
def insufficientMessage (available requested : Int) : String :=
  "Insufficient inventory. Available: " ++ toString available ++
    ", Requested: " ++ toString requested

/-- The message of the `BadRequestException` thrown by
`releaseInventory`:
`Cannot release more than reserved. Reserved: ${..}, Requested: ${..}`. -/
def releaseMessage (reserved requested : Int) : String :=
  "Cannot release more than reserved. Reserved: " ++ toString reserved ++
    ", Requested: " ++ toString requested

/-- The body (`UpdateInventoryDto`) accepted by `updateInventory`: any
subset of the four fields; `none` models an absent (`undefined`)
field. -/
structure UpdateInventoryDto where
  quantity : Option Int
  reserved : Option Int
  lowStockThreshold : Option Int
  isTracked : Option Bool
deriving DecidableEq, Repr

/-- The result of one mutating ledger call: updated record, appended
`InventoryTransaction` rows, published events. -/
abbrev LedgerResult :=
  InventoryRecord × List InventoryTransaction × List DomainEvent

/-- `InventoryService.updateInventory`.  Resolves each field with `??`
(absent `lowStockThreshold` / `isTracked` are passed as `undefined` to
`prisma.update`, which leaves the column unchanged), recomputes
`available = quantity - reserved`, throws when it is negative, appends
a RESTOCK/ADJUSTMENT row when a quantity was supplied and differs from
the previous one, publishes `InventoryUpdated` unconditionally and
`LowStockAlert` when the updated row is tracked and
`available <= lowStockThreshold`. -/
def updateInventory (inv : InventoryRecord) (dto : UpdateInventoryDto) :
    Except InvError LedgerResult :=
  let previousQuantity := inv.quantity
  let quantity := dto.quantity.getD inv.quantity
  let reserved := dto.reserved.getD inv.reserved
  let available := quantity - reserved
  if available < 0 then
    Except.error (InvError.badRequest "Available quantity cannot be negative")
  else
    let updated : InventoryRecord :=
      { quantity := quantity
        reserved := reserved
        available := available
        lowStockThreshold := dto.lowStockThreshold.getD inv.lowStockThreshold
        isTracked := dto.isTracked.getD inv.isTracked }
    let txs : List InventoryTransaction :=
      match dto.quantity with
      | some q =>
          if q ≠ previousQuantity then
            [{ type := if q > previousQuantity then TxType.RESTOCK
                 else TxType.ADJUSTMENT
               quantity := q - previousQuantity
               reason := "Manual inventory update"
               reference := none }]
          else []
      | none => []
    let events : List DomainEvent :=
      [DomainEvent.inventoryUpdated previousQuantity quantity available] ++
        (if available ≤ updated.lowStockThreshold ∧ updated.isTracked = true then
          [DomainEvent.lowStockAlert available updated.lowStockThreshold]
        else [])
    Except.ok (updated, txs, events)

/-- `InventoryService.reserveInventory`.  Throws when
`available < quantity` (no other check), otherwise moves `quantity`
units from available to reserved and appends a RESERVE row with delta
`-quantity`.  Publishes no event. -/
def reserveInventory (inv : InventoryRecord) (quantity : Int)
    (reference : Option String) : Except InvError LedgerResult :=
  if inv.available < quantity then
    Except.error
      (InvError.badRequest (insufficientMessage inv.available quantity))
  else
    Except.ok
      ({ inv with
          reserved := inv.reserved + quantity
          available := inv.available - quantity },
        [{ type := TxType.RESERVE
           quantity := -quantity
           reason := "Inventory reservation"
           reference := reference }],
        [])

/-- `InventoryService.releaseInventory`.  Throws when
`reserved < quantity`, otherwise moves `quantity` units back from
reserved to available and appends a RELEASE row with delta
`+quantity`.  Publishes no event. -/
def releaseInventory (inv : InventoryRecord) (quantity : Int)
    (reference : Option String) : Except InvError LedgerResult :=
  if inv.reserved < quantity then
    Except.error
      (InvError.badRequest (releaseMessage inv.reserved quantity))
  else
    Except.ok
      ({ inv with
          reserved := inv.reserved - quantity
          available := inv.available + quantity },
        [{ type := TxType.RELEASE
           quantity := quantity
           reason := "Inventory release"
           reference := reference }],
        [])

/-- `InventoryService.deductInventory`.  Splits the deduction between
the reserved and the available pool, throws when the available part
exceeds `available`, otherwise applies the split, appends a SALE row
with delta `-quantity` and publishes `LowStockAlert` when the updated
row is tracked and at or below its threshold. -/
def deductInventory (inv : InventoryRecord) (quantity : Int)
    (reference : Option String) : Except InvError LedgerResult :=
  let deductFromReserved := min inv.reserved quantity
  let deductFromAvailable := quantity - deductFromReserved
  if deductFromAvailable > inv.available then
    Except.error (InvError.badRequest "Insufficient inventory")
  else
    let updated : InventoryRecord :=
      { inv with
          quantity := inv.quantity - quantity
          reserved := inv.reserved - deductFromReserved
          available := inv.available - deductFromAvailable }
    let events : List DomainEvent :=
      if updated.available ≤ updated.lowStockThreshold ∧
          updated.isTracked = true then
        [DomainEvent.lowStockAlert updated.available updated.lowStockThreshold]
      else []
    Except.ok
      (updated,
        [{ type := TxType.SALE
           quantity := -quantity
           reason := "Inventory deduction for order"
           reference := reference }],
        events)

/-- One call against the ledger, for reasoning about sequences of
calls on a single product. -/
inductive InvOp where
  | update (dto : UpdateInventoryDto)
  | reserve (quantity : Int) (reference : Option String)
  | release (quantity : Int) (reference : Option String)
  | deduct (quantity : Int) (reference : Option String)

/-- Dispatch one call to the corresponding service method. -/
def applyOp (inv : InventoryRecord) : InvOp → Except InvError LedgerResult
  | InvOp.update dto => updateInventory inv dto
  | InvOp.reserve q ref => reserveInventory inv q ref
  | InvOp.release q ref => releaseInventory inv q ref
  | InvOp.deduct q ref => deductInventory inv q ref

/-- A call observed from outside: a thrown exception aborts the call
before any write, so the record is unchanged and no row or event is
produced. -/
def stepOp (inv : InventoryRecord) (op : InvOp) : LedgerResult :=
  match applyOp inv op with
  | Except.ok out => out
  | Except.error _ => (inv, [], [])

/-- Run a sequence of calls, keeping the record state (failing calls
leave it unchanged). -/
def runOps (inv : InventoryRecord) (ops : List InvOp) : InventoryRecord :=
  ops.foldl (fun s op => (stepOp s op).1) inv

/-- `InventoryService.getLowStockProducts`.  The database query keeps
the tracked rows whose `available` is at most the override when one is
given and at most the row's own `lowStockThreshold` otherwise
(`threshold ?? this.prisma.productInventory.fields.lowStockThreshold`),
sorted by `available` ascending; the service then filters the result
again by each row's own threshold. -/
def getLowStockProducts (rows : List InventoryRecord)
    (threshold : Option Int) : List InventoryRecord :=
  let products :=
    (rows.filter fun inv =>
        inv.isTracked && decide (inv.available ≤ threshold.getD inv.lowStockThreshold)).mergeSort
      fun a b => a.available ≤ b.available
  products.filter fun inv => decide (inv.available ≤ inv.lowStockThreshold)

namespace EventPublisher

/-- `private readonly maxRetries = 3` of the user-service
`EventService`. -/
def maxRetries : Nat := 3

/-- `private readonly retryDelay = 5000` (milliseconds) of the
user-service `EventService`. -/
def retryDelay : Nat := 5000

/-- Outcome of one body of the `try` block of `publishEvent`:
`Except.error` models a thrown exception (connection not available, or
`channel.publish` throwing), `Except.ok b` models `channel.publish`
returning `b`.  The `catch` branch is taken unless the attempt
returned `true`. -/
def attemptSucceeds (r : Except String Bool) : Bool :=
  match r with
  | Except.ok true => true
  | _ => false

/-- `EventService.publishEvent` of the user-service copy
(`src/unnamed/part_012`): one attempt per call; on anything but a
successful publish the `catch` branch recurses with `retries + 1`
after sleeping `retryDelay`, as long as `retries < maxRetries`, and
otherwise returns `false`.  `attempt k` is the outcome of the attempt
made with `retries = k`.  The function is total and returns `Bool`:
every exception inside the `try` block is caught, so nothing
propagates to the caller. -/
def publishEvent (attempt : Nat → Except String Bool) (retries : Nat) : Bool :=
  if attemptSucceeds (attempt retries) then true
  else if h : retries < maxRetries then publishEvent attempt (retries + 1)
  else false
termination_by maxRetries - retries
decreasing_by omega

/-- `publishEvent` instrumented with its observable trace: result,
number of publish attempts made, and the list of sleeps (in ms)
inserted between consecutive attempts. -/
def publishEventTrace (attempt : Nat → Except String Bool) (retries : Nat) :
    Bool × Nat × List Nat :=
  if attemptSucceeds (attempt retries) then (true, 1, [])
  else if h : retries < maxRetries then
    let rest := publishEventTrace attempt (retries + 1)
    (rest.1, rest.2.1 + 1, retryDelay :: rest.2.2)
  else (false, 1, [])
termination_by maxRetries - retries
decreasing_by omega

/-- `private publish` of the product-service copy
(`category.service.ts`): returns `false` immediately when not
connected, makes a single publish attempt (its boolean return value is
ignored), returns `true` unless the attempt threw, in which case the
`catch` branch returns `false`.  Total: never raises to the caller. -/
def categoryPublish (connected : Bool) (attempt : Except String Unit) : Bool :=
  if !connected then false
  else
    match attempt with
    | Except.ok _ => true
    | Except.error _ => false

end EventPublisher

/-- The record invariant stated by the data model: `available` is the
difference of `quantity` and `reserved`, and all three are
non-negative. -/
def Wf (inv : InventoryRecord) : Prop :=
  inv.available = inv.quantity - inv.reserved ∧
    0 ≤ inv.quantity ∧ 0 ≤ inv.reserved ∧ 0 ≤ inv.available

/-- A call whose numeric inputs are non-negative: the quantity of a
Reserve/Release/Deduct, and the `quantity`/`reserved` values supplied
to Update when present. -/
def NonnegOp : InvOp → Prop
  | InvOp.update dto =>
      (∀ q, dto.quantity = some q → 0 ≤ q) ∧
        (∀ r, dto.reserved = some r → 0 ≤ r)
  | InvOp.reserve q _ => 0 ≤ q
  | InvOp.release q _ => 0 ≤ q
  | InvOp.deduct q _ => 0 ≤ q

/-- Number of ledger rows a successful call appends, stated from the
amended claim: one for every Reserve/Release/Deduct, and for Update
one exactly when the resolved quantity differs from the stored one
(updates that change only other fields append none). -/
def expectedTxCount (inv : InventoryRecord) : InvOp → Nat
  | InvOp.update dto =>
      if dto.quantity.getD inv.quantity = inv.quantity then 0 else 1
  | _ => 1

/-- Whether a list of published events contains a `LowStockAlert`. -/
def hasLowStockAlert (evs : List DomainEvent) : Bool :=
  evs.any fun e =>
    match e with
    | DomainEvent.lowStockAlert _ _ => true
    | _ => false

example :
    reserveInventory ⟨100, 0, 100, 10, true⟩ 95 none =
      Except.ok (⟨100, 95, 5, 10, true⟩,
        [⟨TxType.RESERVE, -95, "Inventory reservation", none⟩], []) := rfl

example :
    deductInventory ⟨100, 0, 100, 10, true⟩ 96 none =
      Except.ok (⟨4, 0, 4, 10, true⟩,
        [⟨TxType.SALE, -96, "Inventory deduction for order", none⟩],
        [DomainEvent.lowStockAlert 4 10]) := rfl

example :
    updateInventory ⟨100, 0, 100, 10, true⟩ ⟨some 100, none, none, none⟩ =
      Except.ok (⟨100, 0, 100, 10, true⟩, [],
        [DomainEvent.inventoryUpdated 100 100 100]) := rfl

/-- Every single successful call with non-negative inputs preserves the
record invariant; a failing call leaves the record unchanged. -/
theorem stepOp_wf (inv : InventoryRecord) (op : InvOp)
    (hwf : Wf inv) (hop : NonnegOp op) : Wf (stepOp inv op).1 := by
  obtain ⟨Q, R, A, L, T⟩ := inv
  obtain ⟨h1, h2, h3, h4⟩ := hwf
  simp only at h1 h2 h3 h4
  cases op with
  | update dto =>
      obtain ⟨hq, hr⟩ := hop
      have hq' : 0 ≤ dto.quantity.getD Q := by
        cases hdq : dto.quantity with
        | none => simpa using h2
        | some q => simpa using hq q hdq
      have hr' : 0 ≤ dto.reserved.getD R := by
        cases hdr : dto.reserved with
        | none => simpa using h3
        | some r => simpa using hr r hdr
      by_cases hc : dto.quantity.getD Q - dto.reserved.getD R < 0
      · have hstep : (stepOp ⟨Q, R, A, L, T⟩ (InvOp.update dto)).1 =
            ⟨Q, R, A, L, T⟩ := by
          simp [stepOp, applyOp, updateInventory, hc]
        rw [hstep]
        exact ⟨h1, h2, h3, h4⟩
      · have hstep : (stepOp ⟨Q, R, A, L, T⟩ (InvOp.update dto)).1 =
            ⟨dto.quantity.getD Q, dto.reserved.getD R,
              dto.quantity.getD Q - dto.reserved.getD R,
              dto.lowStockThreshold.getD L, dto.isTracked.getD T⟩ := by
          simp [stepOp, applyOp, updateInventory, hc]
        rw [hstep]
        refine ⟨?_, ?_, ?_, ?_⟩ <;> dsimp only <;> omega
  | reserve q ref =>
      have hq : 0 ≤ q := hop
      by_cases hc : A < q
      · have hstep : (stepOp ⟨Q, R, A, L, T⟩ (InvOp.reserve q ref)).1 =
            ⟨Q, R, A, L, T⟩ := by
          simp [stepOp, applyOp, reserveInventory, hc]
        rw [hstep]
        exact ⟨h1, h2, h3, h4⟩
      · have hstep : (stepOp ⟨Q, R, A, L, T⟩ (InvOp.reserve q ref)).1 =
            ⟨Q, R + q, A - q, L, T⟩ := by
          simp [stepOp, applyOp, reserveInventory, hc]
        rw [hstep]
        refine ⟨?_, ?_, ?_, ?_⟩ <;> dsimp only <;> omega
  | release q ref =>
      have hq : 0 ≤ q := hop
      by_cases hc : R < q
      · have hstep : (stepOp ⟨Q, R, A, L, T⟩ (InvOp.release q ref)).1 =
            ⟨Q, R, A, L, T⟩ := by
          simp [stepOp, applyOp, releaseInventory, hc]
        rw [hstep]
        exact ⟨h1, h2, h3, h4⟩
      · have hstep : (stepOp ⟨Q, R, A, L, T⟩ (InvOp.release q ref)).1 =
            ⟨Q, R - q, A + q, L, T⟩ := by
          simp [stepOp, applyOp, releaseInventory, hc]
        rw [hstep]
        refine ⟨?_, ?_, ?_, ?_⟩ <;> dsimp only <;> omega
  | deduct q ref =>
      have hq : 0 ≤ q := hop
      cases le_total R q with
      | inl hle =>
          have hmin : min R q = R := min_eq_left hle
          by_cases hc : q - min R q > A
          · have hstep : (stepOp ⟨Q, R, A, L, T⟩ (InvOp.deduct q ref)).1 =
                ⟨Q, R, A, L, T⟩ := by
              simp only [stepOp, applyOp, deductInventory]
              rw [if_pos (by simpa using hc)]
            rw [hstep]
            exact ⟨h1, h2, h3, h4⟩
          · have hstep : (stepOp ⟨Q, R, A, L, T⟩ (InvOp.deduct q ref)).1 =
                ⟨Q - q, R - min R q, A - (q - min R q), L, T⟩ := by
              simp only [stepOp, applyOp, deductInventory]
              rw [if_neg (by simpa using hc)]
            rw [hmin] at hstep hc
            rw [hstep]
            refine ⟨?_, ?_, ?_, ?_⟩ <;> dsimp only <;> omega
      | inr hle =>
          have hmin : min R q = q := min_eq_right hle
          by_cases hc : q - min R q > A
          · have hstep : (stepOp ⟨Q, R, A, L, T⟩ (InvOp.deduct q ref)).1 =
                ⟨Q, R, A, L, T⟩ := by
              simp only [stepOp, applyOp, deductInventory]
              rw [if_pos (by simpa using hc)]
            rw [hstep]
            exact ⟨h1, h2, h3, h4⟩
          · have hstep : (stepOp ⟨Q, R, A, L, T⟩ (InvOp.deduct q ref)).1 =
                ⟨Q - q, R - min R q, A - (q - min R q), L, T⟩ := by
              simp only [stepOp, applyOp, deductInventory]
              rw [if_neg (by simpa using hc)]
            rw [hmin] at hstep hc
            rw [hstep]
            refine ⟨?_, ?_, ?_, ?_⟩ <;> dsimp only <;> omega

/-- C1 (amended): starting from a record satisfying
`available = quantity - reserved` with all three fields non-negative,
any sequence of Reserve/Release/Deduct/Update calls whose numeric
inputs are non-negative keeps the invariant after every call: failing
calls leave the record unchanged and successful calls preserve
`available = quantity - reserved` and the non-negativity of
`quantity`, `reserved` and `available`.  (Without the non-negativity
restriction on the inputs the claim is false, see the
counterexample.) -/
theorem runOps_preserves_invariants (inv : InventoryRecord) (ops : List InvOp)
    (hwf : Wf inv) (hops : ∀ op ∈ ops, NonnegOp op) : Wf (runOps inv ops) := by
  induction ops generalizing inv with
  | nil => exact hwf
  | cons op rest ih =>
      have hstep := stepOp_wf inv op hwf (hops op (List.mem_cons_self op rest))
      have hrest : ∀ o ∈ rest, NonnegOp o :=
        fun o ho => hops o (List.mem_cons_of_mem op ho)
      simpa [runOps] using ih (stepOp inv op).1 hstep hrest

/-- C1 counterexample: `reserveInventory` performs no positivity check,
so reserving a negative quantity on the well-formed record
`{quantity: 10, reserved: 0, available: 10}` succeeds and leaves
`reserved = -3 < 0`, violating the claimed invariant after a
non-failing call. -/
theorem reserveNegative_breaks_nonnegativity :
    reserveInventory ⟨10, 0, 10, 5, true⟩ (-3) none =
      Except.ok (⟨10, -3, 13, 5, true⟩,
        [⟨TxType.RESERVE, 3, "Inventory reservation", none⟩], []) ∧
    ¬ (0 ≤ (-3 : Int)) :=
  ⟨rfl, by decide⟩

/-- Witness for C1's theorem on a concrete run: reserve 95 of 100,
restate the quantity, deduct 96 (split 95 from reserved and 1 from
available), then attempt an over-release which fails and changes
nothing. -/
theorem runOps_preserves_invariants_witness :
    Wf (runOps ⟨100, 0, 100, 10, true⟩
      [InvOp.reserve 95 none, InvOp.update ⟨some 100, none, none, none⟩,
        InvOp.deduct 96 none, InvOp.release 2 none]) :=
  runOps_preserves_invariants _ _ ⟨rfl, by decide, by decide, by decide⟩
    (by
      intro op hop
      simp only [List.mem_cons, List.not_mem_nil, or_false] at hop
      rcases hop with rfl | rfl | rfl | rfl
      · exact (by decide : (0 : Int) ≤ 95)
      · exact ⟨fun q hq => by simp at hq; omega, fun r hr => by simp at hr⟩
      · exact (by decide : (0 : Int) ≤ 96)
      · exact (by decide : (0 : Int) ≤ 2))

/-- C2 counterexample: `reserveInventory` never checks `quantity > 0`.
Reserving 0 units on `{quantity: 10, reserved: 0, available: 10}`
violates the claimed precondition `quantity > 0`, yet the call
succeeds (and even appends a RESERVE row with delta 0) instead of
failing with `InsufficientInventory`. -/
theorem reserveZero_succeeds :
    reserveInventory ⟨10, 0, 10, 5, true⟩ 0 none =
      Except.ok (⟨10, 0, 10, 5, true⟩,
        [⟨TxType.RESERVE, 0, "Inventory reservation", none⟩], []) ∧
    ¬ ((0 : Int) > 0) :=
  ⟨rfl, by decide⟩

/-- C2 (amended): `reserveInventory` succeeds exactly when
`available >= quantity` — there is no `quantity > 0` check, so
non-positive quantities succeed whenever `available >= quantity`.
When `available < quantity` it fails with the insufficient-inventory
error whose message states both the available and the requested
amounts, and the record is not mutated (no row, no event). -/
theorem reserveInventory_spec (inv : InventoryRecord) (q : Int)
    (ref : Option String) :
    (inv.available < q →
      reserveInventory inv q ref =
        Except.error
          (InvError.badRequest (insufficientMessage inv.available q)) ∧
      stepOp inv (InvOp.reserve q ref) = (inv, [], [])) ∧
    (q ≤ inv.available →
      reserveInventory inv q ref =
        Except.ok
          ({ inv with
              reserved := inv.reserved + q
              available := inv.available - q },
            [⟨TxType.RESERVE, -q, "Inventory reservation", ref⟩], [])) := by
  constructor
  · intro h
    constructor
    · simp [reserveInventory, h]
    · simp [stepOp, applyOp, reserveInventory, h]
  · intro h
    simp [reserveInventory, not_lt.mpr h]

/-- Witness for C2's theorem: requesting 20 with only 10 available
fails with the message stating both amounts and mutates nothing. -/
theorem reserveInventory_spec_witness :
    reserveInventory ⟨10, 0, 10, 5, true⟩ 20 none =
      Except.error (InvError.badRequest (insufficientMessage 10 20)) ∧
    stepOp ⟨10, 0, 10, 5, true⟩ (InvOp.reserve 20 none) =
      (⟨10, 0, 10, 5, true⟩, [], []) :=
  (reserveInventory_spec ⟨10, 0, 10, 5, true⟩ 20 none).1 (by decide)

/-- C3: `deductInventory` computes `fromReserved = min(reserved, q)`
and `fromAvailable = q - fromReserved`, fails with the
insufficient-inventory error exactly when `fromAvailable > available`,
and on success decrements `quantity` by `q`, `reserved` by
`fromReserved` and `available` by `fromAvailable`, appending one SALE
row with delta `-q`.  Consequently `q <= reserved` leaves `available`
unchanged, and `q > reserved` zeroes `reserved` and lowers `available`
by exactly `q - reserved_before`. -/
theorem deductInventory_spec (inv : InventoryRecord) (q : Int)
    (ref : Option String) :
    (deductInventory inv q ref =
        Except.error (InvError.badRequest "Insufficient inventory") ↔
      inv.available < q - min inv.reserved q) ∧
    (q - min inv.reserved q ≤ inv.available →
      ∃ out, deductInventory inv q ref = Except.ok out) ∧
    (∀ r txs evs, deductInventory inv q ref = Except.ok (r, txs, evs) →
      r.quantity = inv.quantity - q ∧
      r.reserved = inv.reserved - min inv.reserved q ∧
      r.available = inv.available - (q - min inv.reserved q) ∧
      txs = [⟨TxType.SALE, -q, "Inventory deduction for order", ref⟩] ∧
      (q ≤ inv.reserved → r.available = inv.available) ∧
      (inv.reserved < q →
        r.reserved = 0 ∧ r.available = inv.available - (q - inv.reserved))) := by
  by_cases hc : q - min inv.reserved q > inv.available
  · have herr : deductInventory inv q ref =
        Except.error (InvError.badRequest "Insufficient inventory") := by
      simp only [deductInventory]
      rw [if_pos (by simpa using hc)]
    refine ⟨?_, ?_, ?_⟩
    · rw [herr]
      simp only [true_iff]
      omega
    · intro h
      exact absurd h (by omega)
    · intro r txs evs h
      rw [herr] at h
      exact Except.noConfusion h
  · have hok : deductInventory inv q ref =
        Except.ok
          ({ inv with
              quantity := inv.quantity - q
              reserved := inv.reserved - min inv.reserved q
              available := inv.available - (q - min inv.reserved q) },
            [⟨TxType.SALE, -q, "Inventory deduction for order", ref⟩],
            if inv.available - (q - min inv.reserved q) ≤
                  inv.lowStockThreshold ∧ inv.isTracked = true then
              [DomainEvent.lowStockAlert
                (inv.available - (q - min inv.reserved q))
                inv.lowStockThreshold]
            else []) := by
      simp only [deductInventory]
      rw [if_neg (by simpa using hc)]
    refine ⟨?_, ?_, ?_⟩
    · rw [hok]
      constructor
      · intro h
        exact Except.noConfusion h
      · intro h
        exact absurd h (by omega)
    · intro h
      exact ⟨_, hok⟩
    · intro r txs evs h
      rw [hok] at h
      simp only [Except.ok.injEq, Prod.mk.injEq] at h
      obtain ⟨h1, h2, h3⟩ := h
      subst h1
      subst h2
      have hm1 : min inv.reserved q ≤ inv.reserved := min_le_left _ _
      have hm2 : min inv.reserved q ≤ q := min_le_right _ _
      refine ⟨rfl, rfl, rfl, rfl, ?_, ?_⟩
      · intro hle
        have hq : min inv.reserved q = q := min_eq_right hle
        dsimp only
        omega
      · intro hlt
        have hq : min inv.reserved q = inv.reserved := min_eq_left (le_of_lt hlt)
        constructor <;> dsimp only <;> omega

/-- Witness for C3's theorem: the spec's own scenario — deduct 96 from
`{quantity: 100, reserved: 0, available: 100}`: `fromReserved = 0`,
`fromAvailable = 96 <= 100`, resulting record `{4, 0, 4}`. -/
theorem deductInventory_spec_witness :
    (∃ out, deductInventory ⟨100, 0, 100, 10, true⟩ 96 none =
        Except.ok out) ∧
    ((4 : Int) = 100 - 96 ∧
      (0 : Int) = 0 - min 0 96 ∧
      (4 : Int) = 100 - (96 - min 0 96) ∧
      ([⟨TxType.SALE, -96, "Inventory deduction for order", none⟩] :
          List InventoryTransaction) =
        [⟨TxType.SALE, -96, "Inventory deduction for order", none⟩] ∧
      ((96 : Int) ≤ 0 → (4 : Int) = 100) ∧
      ((0 : Int) < 96 → (0 : Int) = 0 ∧ (4 : Int) = 100 - (96 - 0))) :=
  ⟨(deductInventory_spec ⟨100, 0, 100, 10, true⟩ 96 none).2.1 (by decide),
    (deductInventory_spec ⟨100, 0, 100, 10, true⟩ 96 none).2.2
      ⟨4, 0, 4, 10, true⟩ _ _ rfl⟩

/-- C5: with an explicit override `t`, `getLowStockProducts` returns
exactly the tracked rows with `available <= t` and
`available <= lowStockThreshold` (that is,
`available <= min t lowStockThreshold`); with no override it returns
exactly the tracked rows at or below their own threshold; an override
never causes a row above its own threshold to be returned. -/
theorem getLowStockProducts_spec (rows : List InventoryRecord)
    (inv : InventoryRecord) :
    (∀ t : Int,
      inv ∈ getLowStockProducts rows (some t) ↔
        inv ∈ rows ∧ inv.isTracked = true ∧
          inv.available ≤ min t inv.lowStockThreshold) ∧
    (inv ∈ getLowStockProducts rows none ↔
      inv ∈ rows ∧ inv.isTracked = true ∧
        inv.available ≤ inv.lowStockThreshold) ∧
    (∀ t : Int, inv ∈ getLowStockProducts rows (some t) →
      inv.available ≤ inv.lowStockThreshold) := by
  have hmem : ∀ thr : Option Int,
      inv ∈ getLowStockProducts rows thr ↔
        inv ∈ rows ∧ inv.isTracked = true ∧
          inv.available ≤ thr.getD inv.lowStockThreshold ∧
          inv.available ≤ inv.lowStockThreshold := by
    intro thr
    simp only [getLowStockProducts, List.mem_filter, List.mem_mergeSort,
      Bool.and_eq_true, decide_eq_true_eq]
    tauto
  refine ⟨?_, ?_, ?_⟩
  · intro t
    rw [hmem (some t)]
    simp only [Option.getD_some, le_min_iff]
    try tauto
  · rw [hmem none]
    simp only [Option.getD_none]
    try tauto
  · intro t h
    exact ((hmem (some t)).mp h).2.2.2

/-- Witness for C5's theorem: a tracked row with `available = 4` and
its own threshold 5 is reported under override 5, and indeed sits at
or below its own threshold. -/
theorem getLowStockProducts_spec_witness :
    (⟨20, 16, 4, 5, true⟩ : InventoryRecord).available ≤
      (⟨20, 16, 4, 5, true⟩ : InventoryRecord).lowStockThreshold :=
  (getLowStockProducts_spec [⟨20, 16, 4, 5, true⟩, ⟨20, 12, 8, 10, true⟩]
      ⟨20, 16, 4, 5, true⟩).2.2 5
    (by
      simp [getLowStockProducts, List.mem_filter, List.mem_mergeSort])

/-- C6: `updateInventory` resolves each absent field to the stored
value, computes `newAvailable = newQuantity - newReserved`, and when
that is negative fails with the invalid-state error, leaving the
record, the transaction log and every other field unchanged; when it
is non-negative the call succeeds and every field of the persisted
record is the resolved value. -/
theorem updateInventory_spec (inv : InventoryRecord)
    (dto : UpdateInventoryDto) :
    (dto.quantity.getD inv.quantity - dto.reserved.getD inv.reserved < 0 →
      updateInventory inv dto =
        Except.error
          (InvError.badRequest "Available quantity cannot be negative") ∧
      stepOp inv (InvOp.update dto) = (inv, [], [])) ∧
    (0 ≤ dto.quantity.getD inv.quantity - dto.reserved.getD inv.reserved →
      (∃ out, updateInventory inv dto = Except.ok out) ∧
      ∀ r txs evs, updateInventory inv dto = Except.ok (r, txs, evs) →
        r.quantity = dto.quantity.getD inv.quantity ∧
        r.reserved = dto.reserved.getD inv.reserved ∧
        r.available =
          dto.quantity.getD inv.quantity - dto.reserved.getD inv.reserved ∧
        r.lowStockThreshold = dto.lowStockThreshold.getD inv.lowStockThreshold ∧
        r.isTracked = dto.isTracked.getD inv.isTracked) := by
  constructor
  · intro h
    constructor
    · simp [updateInventory, h]
    · simp [stepOp, applyOp, updateInventory, h]
  · intro h
    constructor
    · simp only [updateInventory]
      rw [if_neg (by omega)]
      exact ⟨_, rfl⟩
    · intro r txs evs hr
      simp only [updateInventory] at hr
      rw [if_neg (by omega)] at hr
      simp only [Except.ok.injEq, Prod.mk.injEq] at hr
      obtain ⟨h1, h2, h3⟩ := hr
      subst h1
      exact ⟨rfl, rfl, rfl, rfl, rfl⟩

/-- Witness for C6's theorem: supplying `quantity = 3` while
`reserved` stays 5 makes `newAvailable = -2 < 0`: the call fails and
mutates nothing. -/
theorem updateInventory_spec_witness :
    updateInventory ⟨10, 5, 5, 2, true⟩ ⟨some 3, none, none, none⟩ =
      Except.error
        (InvError.badRequest "Available quantity cannot be negative") ∧
    stepOp ⟨10, 5, 5, 2, true⟩ (InvOp.update ⟨some 3, none, none, none⟩) =
      (⟨10, 5, 5, 2, true⟩, [], []) :=
  (updateInventory_spec ⟨10, 5, 5, 2, true⟩ ⟨some 3, none, none, none⟩).1
    (by decide)

/-- C7: for any record with `reserved >= 0` (as the data model
requires) and any `q <= available`, Reserve(q) succeeds, keeps
`quantity` unchanged, and an immediate Release(q) succeeds and
restores the record exactly to its pre-Reserve state. -/
theorem reserve_release_inverse (inv : InventoryRecord) (q : Int)
    (ref1 ref2 : Option String) (hres : 0 ≤ inv.reserved)
    (h : q ≤ inv.available) :
    reserveInventory inv q ref1 =
      Except.ok
        ({ inv with
            reserved := inv.reserved + q
            available := inv.available - q },
          [⟨TxType.RESERVE, -q, "Inventory reservation", ref1⟩], []) ∧
    releaseInventory
        { inv with
            reserved := inv.reserved + q
            available := inv.available - q } q ref2 =
      Except.ok (inv, [⟨TxType.RELEASE, q, "Inventory release", ref2⟩], []) := by
  obtain ⟨Q, R, A, L, T⟩ := inv
  simp only at hres h
  constructor
  · simp [reserveInventory, not_lt.mpr h]
  · have hcond : ¬ (R + q < q) := by omega
    simp only [releaseInventory]
    rw [if_neg (by simpa using hcond)]
    have h1 : R + q - q = R := by ring
    have h2 : A - q + q = A := by ring
    simp only [h1, h2]

/-- Witness for C7's theorem: reserve then release 95 units on
`{quantity: 100, reserved: 0, available: 100}`. -/
theorem reserve_release_inverse_witness :
    reserveInventory ⟨100, 0, 100, 10, true⟩ 95 none =
      Except.ok (⟨100, 95, 5, 10, true⟩,
        [⟨TxType.RESERVE, -95, "Inventory reservation", none⟩], []) ∧
    releaseInventory ⟨100, 95, 5, 10, true⟩ 95 none =
      Except.ok (⟨100, 0, 100, 10, true⟩,
        [⟨TxType.RELEASE, 95, "Inventory release", none⟩], []) :=
  reserve_release_inverse ⟨100, 0, 100, 10, true⟩ 95 none none
    (by decide) (by decide)

/-- On every successful `updateInventory` call a transaction is
appended iff the resolved quantity differs from the prior quantity;
when appended it is RESTOCK for an increase and ADJUSTMENT for a
decrease, with delta = new quantity − old quantity. -/
theorem updateInventory_txs_split (inv : InventoryRecord)
    (dto : UpdateInventoryDto) (r : InventoryRecord)
    (txs : List InventoryTransaction) (evs : List DomainEvent)
    (h : updateInventory inv dto = Except.ok (r, txs, evs)) :
    (dto.quantity.getD inv.quantity = inv.quantity → txs = []) ∧
    (dto.quantity.getD inv.quantity ≠ inv.quantity →
      txs =
        [{ type := if dto.quantity.getD inv.quantity > inv.quantity then
             TxType.RESTOCK else TxType.ADJUSTMENT
           quantity := dto.quantity.getD inv.quantity - inv.quantity
           reason := "Manual inventory update"
           reference := none }]) := by
  simp only [updateInventory] at h
  by_cases hc : dto.quantity.getD inv.quantity - dto.reserved.getD inv.reserved < 0
  · rw [if_pos hc] at h
    exact Except.noConfusion h
  · rw [if_neg hc] at h
    simp only [Except.ok.injEq, Prod.mk.injEq] at h
    obtain ⟨h1, h2, h3⟩ := h
    cases hdq : dto.quantity with
    | none =>
        rw [hdq] at h2
        simp only at h2
        subst h2
        simp
    | some q =>
        rw [hdq] at h2
        simp only [Option.getD_some]
        by_cases hne : q = inv.quantity
        · subst hne
          simp only [ne_eq, not_true_eq_false, if_false, reduceIte] at h2
          subst h2
          simp
        · simp only [ne_eq, hne, not_false_eq_true, if_true, reduceIte] at h2
          subst h2
          constructor
          · intro habs
            exact absurd habs hne
          · intro _
            rfl

/-- C8: on every successful `updateInventory` call a transaction is
appended iff the resolved quantity differs from the prior quantity
(an absent quantity resolves to the prior value, so no row); when
appended it is RESTOCK for an increase and ADJUSTMENT for a decrease,
with delta = new quantity − old quantity.  In particular an update
whose quantity equals the current value appends no transaction. -/
theorem updateInventory_tx_spec (inv : InventoryRecord)
    (dto : UpdateInventoryDto) (r : InventoryRecord)
    (txs : List InventoryTransaction) (evs : List DomainEvent)
    (h : updateInventory inv dto = Except.ok (r, txs, evs)) :
    (dto.quantity.getD inv.quantity = inv.quantity → txs = []) ∧
    (dto.quantity.getD inv.quantity ≠ inv.quantity →
      txs =
        [{ type := if dto.quantity.getD inv.quantity > inv.quantity then
             TxType.RESTOCK else TxType.ADJUSTMENT
           quantity := dto.quantity.getD inv.quantity - inv.quantity
           reason := "Manual inventory update"
           reference := none }]) :=
  updateInventory_txs_split inv dto r txs evs h

/-- Witness for C8's theorem: updating quantity from 50 to 80 appends
exactly one RESTOCK row with delta 30. -/
theorem updateInventory_tx_spec_witness :
    ([⟨TxType.RESTOCK, 30, "Manual inventory update", none⟩] :
        List InventoryTransaction) =
      [⟨if (80 : Int) > 50 then TxType.RESTOCK else TxType.ADJUSTMENT,
        80 - 50, "Manual inventory update", none⟩] :=
  (updateInventory_tx_spec ⟨50, 0, 50, 10, true⟩ ⟨some 80, none, none, none⟩
      ⟨80, 0, 80, 10, true⟩ _ _ rfl).2 (by decide)

/-- C9 counterexample: `updateInventory({reserved: 5})` on
`{quantity: 100, reserved: 0, available: 100}` succeeds and changes
the stored record (reserved and available change), yet appends zero
`InventoryTransaction` rows — the guard only looks at `quantity` —
contradicting "one row per ledger-mutating call". -/
theorem updateReserved_changes_record_without_tx :
    updateInventory ⟨100, 0, 100, 10, true⟩ ⟨none, some 5, none, none⟩ =
      Except.ok (⟨100, 5, 95, 10, true⟩, [],
        [DomainEvent.inventoryUpdated 100 100 95]) ∧
    (⟨100, 5, 95, 10, true⟩ : InventoryRecord) ≠ ⟨100, 0, 100, 10, true⟩ :=
  ⟨rfl, by decide⟩

/-- C9 (amended): every successful Reserve/Release/Deduct appends
exactly one `InventoryTransaction` row; a successful Update appends
exactly one row when the resolved quantity differs from the stored
quantity and zero rows otherwise (in particular an update that changes
only `reserved`, `lowStockThreshold` or `isTracked` appends none). -/
theorem applyOp_tx_count (inv : InventoryRecord) (op : InvOp)
    (r : InventoryRecord) (txs : List InventoryTransaction)
    (evs : List DomainEvent)
    (h : applyOp inv op = Except.ok (r, txs, evs)) :
    txs.length = expectedTxCount inv op := by
  cases op with
  | update dto =>
      have hspec := updateInventory_txs_split inv dto r txs evs h
      simp only [expectedTxCount]
      by_cases hq : dto.quantity.getD inv.quantity = inv.quantity
      · rw [if_pos hq, hspec.1 hq]
        rfl
      · rw [if_neg hq, hspec.2 hq]
        rfl
  | reserve q ref =>
      simp only [applyOp, reserveInventory] at h
      by_cases hc : inv.available < q
      · rw [if_pos hc] at h
        exact Except.noConfusion h
      · rw [if_neg hc] at h
        simp only [Except.ok.injEq, Prod.mk.injEq] at h
        obtain ⟨h1, h2, h3⟩ := h
        subst h2
        rfl
  | release q ref =>
      simp only [applyOp, releaseInventory] at h
      by_cases hc : inv.reserved < q
      · rw [if_pos hc] at h
        exact Except.noConfusion h
      · rw [if_neg hc] at h
        simp only [Except.ok.injEq, Prod.mk.injEq] at h
        obtain ⟨h1, h2, h3⟩ := h
        subst h2
        rfl
  | deduct q ref =>
      simp only [applyOp, deductInventory] at h
      by_cases hc : q - min inv.reserved q > inv.available
      · rw [if_pos (by simpa using hc)] at h
        exact Except.noConfusion h
      · rw [if_neg (by simpa using hc)] at h
        simp only [Except.ok.injEq, Prod.mk.injEq] at h
        obtain ⟨h1, h2, h3⟩ := h
        subst h2
        rfl

/-- Witness for C9's theorem: a successful reservation of 4 units
appends exactly one row. -/
theorem applyOp_tx_count_witness :
    ([⟨TxType.RESERVE, -4, "Inventory reservation", none⟩] :
        List InventoryTransaction).length =
      expectedTxCount ⟨10, 0, 10, 5, true⟩ (InvOp.reserve 4 none) :=
  applyOp_tx_count ⟨10, 0, 10, 5, true⟩ (InvOp.reserve 4 none)
    ⟨10, 4, 6, 5, true⟩ _ _ rfl

/-- C10: on every successful `updateInventory` call, `LowStockAlert`
is published iff the post-update `newAvailable` is at most the
lowStockThreshold resolved from this call (the supplied value when
present, the stored one otherwise) and the resolved `isTracked` is
true — the decision is evaluated against the updated record, not the
values stored before the call. -/
theorem updateInventory_lowStock_decision (inv : InventoryRecord)
    (dto : UpdateInventoryDto) (r : InventoryRecord)
    (txs : List InventoryTransaction) (evs : List DomainEvent)
    (h : updateInventory inv dto = Except.ok (r, txs, evs)) :
    hasLowStockAlert evs =
      (decide (dto.quantity.getD inv.quantity - dto.reserved.getD inv.reserved ≤
          dto.lowStockThreshold.getD inv.lowStockThreshold) &&
        dto.isTracked.getD inv.isTracked) := by
  simp only [updateInventory] at h
  by_cases hc : dto.quantity.getD inv.quantity - dto.reserved.getD inv.reserved < 0
  · rw [if_pos hc] at h
    exact Except.noConfusion h
  · rw [if_neg hc] at h
    simp only [Except.ok.injEq, Prod.mk.injEq] at h
    obtain ⟨h1, h2, h3⟩ := h
    subst h3
    by_cases halert :
        dto.quantity.getD inv.quantity - dto.reserved.getD inv.reserved ≤
            dto.lowStockThreshold.getD inv.lowStockThreshold ∧
          dto.isTracked.getD inv.isTracked = true
    · rw [if_pos halert]
      simp [hasLowStockAlert, halert.1, halert.2]
    · rw [if_neg halert]
      simp only [hasLowStockAlert, List.append_nil, List.any_cons,
        List.any_nil, Bool.or_false]
      rw [Classical.not_and_iff_or_not_not] at halert
      rcases halert with hna | hnt
      · simp [hna]
      · simp [hnt]

/-- Witness for C10's theorem: the stored threshold is 20 (which would
fire an alert at `available = 10`), but supplying threshold 3 in the
same call suppresses the alert: the decision uses the new value. -/
theorem updateInventory_lowStock_decision_witness :
    hasLowStockAlert [DomainEvent.inventoryUpdated 10 10 10] =
      (decide ((10 : Int) - 0 ≤ 3) && true) :=
  updateInventory_lowStock_decision ⟨10, 0, 10, 20, true⟩
    ⟨none, none, some 3, none⟩ ⟨10, 0, 10, 3, true⟩ _ _ rfl

namespace EventPublisher

/-- The instrumented publisher computes the same result as
`publishEvent`. -/
theorem publishEventTrace_fst (attempt : Nat → Except String Bool)
    (retries : Nat) :
    (publishEventTrace attempt retries).1 = publishEvent attempt retries := by
  generalize hfuel : maxRetries - retries = fuel
  induction fuel generalizing retries with
  | zero =>
      have hge : ¬ retries < maxRetries := by omega
      unfold publishEventTrace publishEvent
      by_cases hcc : attemptSucceeds (attempt retries) = true
      · simp [hcc]
      · simp [hcc, hge]
  | succ n ih =>
      have hlt : retries < maxRetries := by omega
      unfold publishEventTrace publishEvent
      by_cases hcc : attemptSucceeds (attempt retries) = true
      · simp [hcc]
      · simp only [hcc, Bool.false_eq_true, if_false, hlt, dif_pos]
        exact ih (retries + 1) (by omega)

/-- The publisher makes at most `maxRetries - retries + 1` attempts. -/
theorem publishEventTrace_attempts_le (attempt : Nat → Except String Bool)
    (retries : Nat) :
    (publishEventTrace attempt retries).2.1 ≤ maxRetries - retries + 1 := by
  generalize hfuel : maxRetries - retries = fuel
  induction fuel generalizing retries with
  | zero =>
      have hge : ¬ retries < maxRetries := by omega
      unfold publishEventTrace
      by_cases hcc : attemptSucceeds (attempt retries) = true
      · simp [hcc]
      · simp [hcc, hge]
  | succ n ih =>
      have hlt : retries < maxRetries := by omega
      unfold publishEventTrace
      by_cases hcc : attemptSucceeds (attempt retries) = true
      · simp [hcc]
      · simp only [hcc, Bool.false_eq_true, if_false, hlt, dif_pos]
        have := ih (retries + 1) (by omega)
        omega

/-- Every sleep inserted by the publisher is the fixed retry delay. -/
theorem publishEventTrace_delays (attempt : Nat → Except String Bool)
    (retries : Nat) :
    ∀ d ∈ (publishEventTrace attempt retries).2.2, d = retryDelay := by
  generalize hfuel : maxRetries - retries = fuel
  induction fuel generalizing retries with
  | zero =>
      have hge : ¬ retries < maxRetries := by omega
      unfold publishEventTrace
      by_cases hcc : attemptSucceeds (attempt retries) = true
      · simp [hcc]
      · simp [hcc, hge]
  | succ n ih =>
      have hlt : retries < maxRetries := by omega
      unfold publishEventTrace
      by_cases hcc : attemptSucceeds (attempt retries) = true
      · simp [hcc]
      · simp only [hcc, Bool.false_eq_true, if_false, hlt, dif_pos]
        intro d hd
        simp only [List.mem_cons] at hd
        rcases hd with rfl | hd
        · rfl
        · exact ih (retries + 1) (by omega) d hd

/-- A failed attempt is exactly one that is not `ok true`. -/
theorem attemptSucceeds_eq_false {r : Except String Bool}
    (h : r ≠ Except.ok true) : attemptSucceeds r = false := by
  cases r with
  | error e => rfl
  | ok b =>
      cases b with
      | false => rfl
      | true => exact absurd rfl h

/-- When every attempt up to `maxRetries` fails, the publisher returns
`false` after exactly `maxRetries - retries + 1` attempts with
`maxRetries - retries` sleeps in between. -/
theorem publishEvent_all_fail (attempt : Nat → Except String Bool)
    (retries : Nat) (hr : retries ≤ maxRetries)
    (hfail : ∀ k, retries ≤ k → k ≤ maxRetries →
      attemptSucceeds (attempt k) = false) :
    publishEvent attempt retries = false ∧
    (publishEventTrace attempt retries).2.1 = maxRetries - retries + 1 ∧
    (publishEventTrace attempt retries).2.2.length = maxRetries - retries := by
  generalize hfuel : maxRetries - retries = fuel
  induction fuel generalizing retries with
  | zero =>
      have hge : ¬ retries < maxRetries := by omega
      have hcc : attemptSucceeds (attempt retries) = false :=
        hfail retries (le_refl retries) hr
      unfold publishEventTrace publishEvent
      simp [hcc, hge]
  | succ n ih =>
      have hlt : retries < maxRetries := by omega
      have hcc : attemptSucceeds (attempt retries) = false :=
        hfail retries (le_refl retries) hr
      have hrec := ih (retries + 1) (by omega)
        (fun k hk1 hk2 => hfail k (by omega) hk2) (by omega)
      unfold publishEventTrace publishEvent
      simp only [hcc, Bool.false_eq_true, if_false, hlt, dif_pos]
      obtain ⟨ha, hb, hc⟩ := hrec
      refine ⟨ha, ?_, ?_⟩
      · omega
      · simp only [List.length_cons]
        omega

end EventPublisher

namespace EventPublisher

/-- C4: `publishEvent` always returns a boolean (the embedding is a
total `Bool`-valued function: every exception in the `try` body lands
in the `catch` branch, nothing is re-thrown to the caller); a call
makes at most `maxRetries + 1 = 4` publish attempts in total — the
initial one plus up to `maxRetries = 3` retries — with the fixed
`retryDelay = 5000` ms sleep between consecutive attempts; and when
every attempt fails it returns `false` after exactly the initial
attempt plus three retries, making no further attempts for that call.
The instrumented trace agrees with the plain function, and the
product-service `publish` copy is likewise a total boolean function. -/
theorem publishEvent_retry_spec (attempt : Nat → Except String Bool) :
    maxRetries = 3 ∧
    retryDelay = 5000 ∧
    (publishEvent attempt 0 = true ∨ publishEvent attempt 0 = false) ∧
    (publishEventTrace attempt 0).1 = publishEvent attempt 0 ∧
    (publishEventTrace attempt 0).2.1 ≤ maxRetries + 1 ∧
    (∀ d ∈ (publishEventTrace attempt 0).2.2, d = retryDelay) ∧
    ((∀ k, k ≤ maxRetries → attempt k ≠ Except.ok true) →
      publishEvent attempt 0 = false ∧
      (publishEventTrace attempt 0).2.1 = maxRetries + 1 ∧
      (publishEventTrace attempt 0).2.2.length = maxRetries) ∧
    (∀ (connected : Bool) (a : Except String Unit),
      categoryPublish connected a = true ∨ categoryPublish connected a = false) := by
  refine ⟨rfl, rfl, ?_, ?_, ?_, ?_, ?_, ?_⟩
  · cases h : publishEvent attempt 0 with
    | true => exact Or.inl rfl
    | false => exact Or.inr rfl
  · exact publishEventTrace_fst attempt 0
  · simpa using publishEventTrace_attempts_le attempt 0
  · exact publishEventTrace_delays attempt 0
  · intro hfail
    have h := publishEvent_all_fail attempt 0 (by omega)
      (fun k hk1 hk2 => attemptSucceeds_eq_false (hfail k hk2))
    simpa using h
  · intro connected a
    cases h : categoryPublish connected a with
    | true => exact Or.inl rfl
    | false => exact Or.inr rfl

/-- Witness for C4's theorem: with an oracle whose every attempt
throws, the call returns `false` after `maxRetries + 1 = 4` attempts
and `maxRetries = 3` sleeps. -/
theorem publishEvent_retry_spec_witness :
    publishEvent (fun _ => Except.error "publish failed") 0 = false ∧
    (publishEventTrace (fun _ => Except.error "publish failed") 0).2.1 =
      maxRetries + 1 ∧
    (publishEventTrace (fun _ => Except.error "publish failed") 0).2.2.length =
      maxRetries :=
  (publishEvent_retry_spec (fun _ => Except.error "publish failed")).2.2.2.2.2.2.1
    (fun k hk => by simp)

end EventPublisher
